import Mathlib

/-!
A shallow embedding of the refreshing-config coordinator from src/index.js
(the RefreshingConfig class together with its diff engine, the relevant part
of fast-json-patch, and the refresh policies), with proofs of the specified
properties.  Snapshots are modelled as insertion-ordered association lists,
matching the key ordering of JavaScript objects; configuration values are
modelled as atoms (the claims under study only involve flat values), so the
diff engine never recurses and every generated patch path consists of a
single top-level key.  Promises are modelled by splitting each asynchronous
operation into its synchronous prefix and the continuation that runs when
the store responds; the store response is passed in explicitly.
-/

set_option autoImplicit false

namespace RefreshingConfig

/-- Configuration values are opaque atoms.  The `emitter` constructor stands
for the back-reference to the owning coordinator that the constructor stores
under the reserved key. -/
inductive Value where
  | str : String → Value
  | num : Int → Value
  | boolean : Bool → Value
  | emitter : Value
  deriving DecidableEq, Repr

/-- A JavaScript object holding the configuration: keys in insertion order. -/
abbrev Snapshot := List (String × Value)

/-- The reserved internal key, set by the constructor. -/
def emitterKey : String := "_emitter"

/-- JavaScript object read: the value of the first entry with the given key. -/
def lookup : Snapshot → String → Option Value
  | [], _ => none
  | (k, v) :: rest, name => if k = name then some v else lookup rest name

/-- JavaScript assignment to a key: update in place, or append when absent. -/
def setKey : Snapshot → String → Value → Snapshot
  | [], name, v => [(name, v)]
  | (k, w) :: rest, name, v =>
      if k = name then (k, v) :: rest else (k, w) :: setKey rest name v

/-- JavaScript delete of a key. -/
def delKey : Snapshot → String → Snapshot
  | [], _ => []
  | (k, v) :: rest, name => if k = name then rest else (k, v) :: delKey rest name

/-- hasOwnProperty in the flat model. -/
def hasKey (s : Snapshot) (name : String) : Bool :=
  (lookup s name).isSome

inductive OpKind where
  | add
  | replace
  | remove
  deriving DecidableEq, Repr

/-- A JSON-patch operation.  Values are atoms in this model, so the diff
never recurses and every generated path has exactly one segment, recorded
here as the bare top-level key. -/
structure PatchOp where
  op : OpKind
  path : String
  value : Option Value
  deriving DecidableEq, Repr

/-- First pass of fast-json-patch compare: the old keys are scanned in
reverse insertion order, emitting replace for a key whose value changed and
remove for a key absent from the new object. -/
def compareOld : List (String × Value) → Snapshot → List PatchOp
  | [], _ => []
  | (k, ov) :: rest, newS =>
      match lookup newS k with
      | some nv =>
          (if ov = nv then [] else [⟨OpKind.replace, k, some nv⟩]) ++ compareOld rest newS
      | none => ⟨OpKind.remove, k, none⟩ :: compareOld rest newS

/-- Second pass of fast-json-patch compare: the new keys in insertion order,
emitting add for each key absent from the old object. -/
def compareNew : List (String × Value) → Snapshot → List PatchOp
  | [], _ => []
  | (k, nv) :: rest, oldS =>
      (if hasKey oldS k then [] else [⟨OpKind.add, k, some nv⟩]) ++ compareNew rest oldS

/-- fast-json-patch compare(old, new) restricted to flat values. -/
def compare (oldS newS : Snapshot) : List PatchOp :=
  compareOld oldS.reverse newS ++ compareNew newS oldS

/-- One fast-json-patch operation applied to an object (the objOps table of
the library: add and replace assign, remove deletes; no validation). -/
def applyOp (s : Snapshot) (p : PatchOp) : Snapshot :=
  match p.op, p.value with
  | OpKind.add, some v => setKey s p.path v
  | OpKind.replace, some v => setKey s p.path v
  | OpKind.remove, _ => delKey s p.path
  | _, _ => s

/-- fast-json-patch apply: the operations in order. -/
def applyPatch (s : Snapshot) (ps : List PatchOp) : Snapshot :=
  ps.foldl applyOp s

/-- The refresh handler removes the first patch entry whose path is the
reserved key (findIndex followed by splice in the source). -/
def stripEmitter : List PatchOp → List PatchOp
  | [] => []
  | p :: rest => if p.path = emitterKey then rest else p :: stripEmitter rest

/-- Removal of every patch entry targeting the reserved key.  This is the
operation the specification describes; it is compared against the
single-splice `stripEmitter` the code performs. -/
def dropEmitterAll : List PatchOp → List PatchOp
  | [] => []
  | p :: rest =>
      if p.path = emitterKey then dropEmitterAll rest else p :: dropEmitterAll rest

/-- Number of patch entries whose path is the reserved key. -/
def countEmitter : List PatchOp → Nat
  | [] => 0
  | p :: rest => (if p.path = emitterKey then 1 else 0) + countEmitter rest

/-- Number of occurrences of a key in a key list. -/
def keyCount : List String → String → Nat
  | [], _ => 0
  | k :: rest, name => (if k = name then 1 else 0) + keyCount rest name

/-- The mutable fields of a RefreshingConfig instance.  `refreshPromise`
holds the identifier of the in-flight fetch, when one exists. -/
structure Coord where
  config : Snapshot
  firstTime : Bool
  refreshPromise : Option Nat
  deriving DecidableEq, Repr

/-- The constructor: an empty config carrying the back-reference under the
reserved key, with the first-time flag set and nothing in flight. -/
def initCoord : Coord :=
  ⟨[(emitterKey, Value.emitter)], true, none⟩

/-- The events a coordinator emits. -/
inductive Event where
  | set : String → Value → Event
  | delete : String → Event
  | changed : Snapshot → List PatchOp → Event
  | refresh : Snapshot → Event
  deriving DecidableEq, Repr

/-- A coordinator instance together with the bookkeeping needed to observe
it: a supply of fresh promise identifiers and a count of getAll calls made
to the store. -/
structure World where
  coord : Coord
  nextId : Nat
  storeCalls : Nat
  deriving DecidableEq, Repr

def initWorld : World :=
  ⟨initCoord, 0, 0⟩

/-- The synchronous body of refresh(): reuse the in-flight promise when one
exists, otherwise call store.getAll once and record the new promise as in
flight.  Returns the promise the caller is handed. -/
def refresh (w : World) : World × Nat :=
  match w.coord.refreshPromise with
  | some fid => (w, fid)
  | none =>
      (⟨⟨w.coord.config, w.coord.firstTime, some w.nextId⟩,
        w.nextId + 1, w.storeCalls + 1⟩, w.nextId)

/-- The response of the store to the in-flight getAll. -/
inductive StoreResult where
  | ok : Snapshot → StoreResult
  | err : String → StoreResult
  deriving DecidableEq, Repr

/-- Resolution of the in-flight fetch.  On success the handler clears the
in-flight marker, diffs the old config against the fetched one, removes the
first entry targeting the reserved key, applies a non-empty patch and emits
changed, then always emits refresh and resolves with the live config.  On
rejection the fulfillment handler does not run: no field is touched (in
particular the in-flight marker stays set), no event fires, and the
rejection propagates to every holder of the promise. -/
def fetchComplete (w : World) (res : StoreResult) :
    World × List Event × Except String Snapshot :=
  match res with
  | StoreResult.err e => (w, [], Except.error e)
  | StoreResult.ok newConfig =>
      let c1 : Coord := ⟨w.coord.config, w.coord.firstTime, none⟩
      let configPatch := stripEmitter (compare c1.config newConfig)
      if configPatch = [] then
        (⟨c1, w.nextId, w.storeCalls⟩, [Event.refresh c1.config], Except.ok c1.config)
      else
        let cfg := applyPatch c1.config configPatch
        (⟨⟨cfg, c1.firstTime, none⟩, w.nextId, w.storeCalls⟩,
          [Event.changed cfg configPatch, Event.refresh cfg], Except.ok cfg)

/-- `n` further refresh() calls in sequence, collecting the promise handed
to each caller. -/
def refreshN : World → Nat → World × List Nat
  | w, 0 => (w, [])
  | w, n + 1 =>
      let r := refresh w
      let rest := refreshN r.1 n
      (rest.1, r.2 :: rest.2)

/-- The policy loop of refreshIfNeeded: number of reactive policies
consulted and whether one of them answered true, short-circuiting at the
first true.  `answers` lists, in registration order, what each attached
policy would answer. -/
def consultPolicies : List Bool → Nat × Bool
  | [] => (0, false)
  | a :: rest =>
      if a then (1, true)
      else
        let r := consultPolicies rest
        (r.1 + 1, r.2)

/-- refreshIfNeeded(): the first invocation clears the first-time flag and
calls refresh() without consulting any policy; later invocations consult
the reactive policies in registration order and call refresh() on the first
true, otherwise resolve immediately with the current config.  Returns the
updated world, the number of policies consulted, and the awaited promise
when refresh() was invoked. -/
def refreshIfNeeded (w : World) (answers : List Bool) : World × Nat × Option Nat :=
  let ft := w.coord.firstTime
  let w0 : World := ⟨⟨w.coord.config, false, w.coord.refreshPromise⟩, w.nextId, w.storeCalls⟩
  if ft then
    let r := refresh w0
    (r.1, 0, some r.2)
  else
    let c := consultPolicies answers
    if c.2 then
      let r := refresh w0
      (r.1, c.1, some r.2)
    else (w0, c.1, none)

/-- get(name): throws on a falsy name, otherwise refreshIfNeeded followed by
a lookup; when a refresh was triggered the lookup happens once the fetch,
resolving with `res`, completes. -/
def get (w : World) (name : String) (answers : List Bool) (res : StoreResult) :
    Except String (World × Option Value) :=
  if name = "" then Except.error ("Missing name")
  else
    let r := refreshIfNeeded w answers
    match r.2.2 with
    | none => Except.ok (r.1, lookup r.1.coord.config name)
    | some _ =>
        match fetchComplete r.1 res with
        | (w2, _, Except.ok _) => Except.ok (w2, lookup w2.coord.config name)
        | (_, _, Except.error e) => Except.error e

/-- getAll(): refreshIfNeeded followed by returning the live config. -/
def getAll (w : World) (answers : List Bool) (res : StoreResult) :
    Except String (World × Snapshot) :=
  let r := refreshIfNeeded w answers
  match r.2.2 with
  | none => Except.ok (r.1, r.1.coord.config)
  | some _ =>
      match fetchComplete r.1 res with
      | (w2, _, Except.ok cfg) => Except.ok (w2, cfg)
      | (_, _, Except.error e) => Except.error e

/-- The observable outcome of the synchronous part of set() or delete():
the world after it ran, the locally emitted events, the arguments passed to
each registered change publisher, whether refresh() was triggered, and the
value the returned promise is chained on (the refresh promise on success,
the store error otherwise). -/
structure MutResult where
  world : World
  events : List Event
  published : List (String × String × Option Value)
  refreshed : Bool
  outcome : Except String Nat
  deriving Repr

/-- set(name, value): store.set first; on success emit the set event, call
publish on every registered change publisher (each call wrapped in an empty
try/catch, so a publisher that throws, marked true in `publisherThrows`, is
swallowed), then call refresh() and chain on its promise.  On store failure
nothing is emitted, no publisher is invoked, refresh() is not called, and
the store error propagates. -/
def set (w : World) (name : String) (value : Value) (storeRes : Except String Unit)
    (publisherThrows : List Bool) : MutResult :=
  match storeRes with
  | Except.error e => ⟨w, [], [], false, Except.error e⟩
  | Except.ok _ =>
      let r := refresh w
      ⟨r.1, [Event.set name value],
        publisherThrows.map (fun _ => (("set" : String), name, some value)),
        true, Except.ok r.2⟩

/-- delete(name): symmetric to set, with the delete event and a publish of
the delete operation. -/
def delete (w : World) (name : String) (storeRes : Except String Unit)
    (publisherThrows : List Bool) : MutResult :=
  match storeRes with
  | Except.error e => ⟨w, [], [], false, Except.error e⟩
  | Except.ok _ =>
      let r := refresh w
      ⟨r.1, [Event.delete name],
        publisherThrows.map (fun _ => (("delete" : String), name, (none : Option Value))),
        true, Except.ok r.2⟩

/-- A full successful write cycle: store.set succeeds, the refresh triggered
by set() runs, and its fetch resolves with `fetched`.  Returns the final
world, all events of the cycle in emission order, and the value the promise
returned by set() resolves with. -/
def setCycle (w : World) (name : String) (value : Value) (publisherThrows : List Bool)
    (fetched : Snapshot) : World × List Event × Except String Snapshot :=
  let m := set w name value (Except.ok ()) publisherThrows
  let r := fetchComplete m.world (StoreResult.ok fetched)
  (r.1, m.events ++ r.2.1, r.2.2)

/-- A full successful delete cycle, analogous to `setCycle`. -/
def deleteCycle (w : World) (name : String) (publisherThrows : List Bool)
    (fetched : Snapshot) : World × List Event × Except String Snapshot :=
  let m := delete w name (Except.ok ()) publisherThrows
  let r := fetchComplete m.world (StoreResult.ok fetched)
  (r.1, m.events ++ r.2.1, r.2.2)

/-- The body of the internal helper collecting affected top-level keys: the
first path segment of every patch, deduplicated in first-occurrence order
(JavaScript Set insertion order). -/
def getAffectedProperties (patches : List PatchOp) : List String :=
  patches.foldl (fun acc p => if p.path ∈ acc then acc else acc ++ [p.path]) []

/-- apply(patches): patch a copy of the config, then for each affected key
issue store.set with the patched value when the key is still defined and
store.delete when it is not.  Returns the store operations issued, in
order; a pair with some value is a set, a pair with none is a delete. -/
def apply (w : World) (patches : List PatchOp) : List (String × Option Value) :=
  let newConfig := applyPatch w.coord.config patches
  (getAffectedProperties patches).map (fun k => (k, lookup newConfig k))

/-- The state of a StaleRefreshPolicy: the validated duration and the
stored moment of the last refresh, as epoch milliseconds. -/
structure StalePolicy where
  duration : Int
  lastRefresh : Option Int
  deriving DecidableEq, Repr

/-- The StaleRefreshPolicy constructor: throws on a duration that is not a
number (modelled as none) or not positive. -/
def StalePolicy.make : Option Int → Except String StalePolicy
  | none => Except.error ("Invalid duration")
  | some d => if d ≤ 0 then Except.error ("Invalid duration") else Except.ok ⟨d, none⟩

/-- shouldRefresh() at wall-clock time `now`.  The comparison is written
lastRefresh.add(duration) in the source, and the add method of a moment
object mutates it in place, so a false-returning call leaves the baseline
moved forward by `duration`. -/
def StalePolicy.shouldRefresh (p : StalePolicy) (now : Int) : StalePolicy × Bool :=
  match p.lastRefresh with
  | none => (⟨p.duration, some now⟩, true)
  | some last =>
      let mutated := last + p.duration
      if now > mutated then (⟨p.duration, some now⟩, true)
      else (⟨p.duration, some mutated⟩, false)

/-- Whether an event is a changed notification. -/
def isChangedEvent : Event → Bool
  | Event.changed _ _ => true
  | _ => false

/-! Helper lemmas about the embedding. -/

theorem refresh_inflight {w : World} {fid : Nat} (h : w.coord.refreshPromise = some fid) :
    refresh w = (w, fid) := by
  unfold refresh
  rw [h]

theorem refresh_preserves_config (w : World) :
    (refresh w).1.coord.config = w.coord.config := by
  unfold refresh
  cases h : w.coord.refreshPromise <;> simp

theorem refreshN_inflight {w : World} {fid : Nat} (h : w.coord.refreshPromise = some fid) :
    ∀ n, refreshN w n = (w, List.replicate n fid) := by
  intro n
  induction n with
  | zero => rfl
  | succ n ih =>
      unfold refreshN
      rw [refresh_inflight h]
      simp [ih, List.replicate_succ]

theorem fetchComplete_ok (w : World) (s : Snapshot) :
    fetchComplete w (StoreResult.ok s)
      = (⟨⟨applyPatch w.coord.config (stripEmitter (compare w.coord.config s)),
            w.coord.firstTime, none⟩, w.nextId, w.storeCalls⟩,
         (if stripEmitter (compare w.coord.config s) = [] then []
          else [Event.changed (applyPatch w.coord.config (stripEmitter (compare w.coord.config s)))
                  (stripEmitter (compare w.coord.config s))])
           ++ [Event.refresh (applyPatch w.coord.config (stripEmitter (compare w.coord.config s)))],
         Except.ok (applyPatch w.coord.config (stripEmitter (compare w.coord.config s)))) := by
  unfold fetchComplete
  by_cases hp : stripEmitter (compare w.coord.config s) = []
  · simp [hp, applyPatch]
  · simp [hp]

theorem lookup_setKey_ne (s : Snapshot) (k name : String) (v : Value) (h : k ≠ name) :
    lookup (setKey s k v) name = lookup s name := by
  induction s with
  | nil => simp [setKey, lookup, h]
  | cons hd rest ih =>
      obtain ⟨k2, v2⟩ := hd
      by_cases hk : k2 = k
      · subst hk
        simp [setKey, lookup, h]
      · simp [setKey, lookup, hk, ih]

theorem lookup_delKey_ne (s : Snapshot) (k name : String) (h : k ≠ name) :
    lookup (delKey s k) name = lookup s name := by
  induction s with
  | nil => simp [delKey]
  | cons hd rest ih =>
      obtain ⟨k2, v2⟩ := hd
      by_cases hk : k2 = k
      · subst hk
        simp [delKey, lookup, h]
      · simp [delKey, lookup, hk, ih]

theorem lookup_applyOp_ne (s : Snapshot) (p : PatchOp) (name : String) (h : p.path ≠ name) :
    lookup (applyOp s p) name = lookup s name := by
  unfold applyOp
  cases hop : p.op <;> cases hv : p.value <;>
    simp [lookup_setKey_ne _ _ _ _ h, lookup_delKey_ne _ _ _ h]

theorem lookup_applyPatch_ne (ps : List PatchOp) (s : Snapshot) (name : String)
    (h : ∀ p ∈ ps, p.path ≠ name) :
    lookup (applyPatch s ps) name = lookup s name := by
  induction ps generalizing s with
  | nil => rfl
  | cons p rest ih =>
      have hrest : ∀ q ∈ rest, q.path ≠ name := fun q hq => h q (List.mem_cons_of_mem _ hq)
      calc lookup (applyPatch s (p :: rest)) name
          = lookup (applyPatch (applyOp s p) rest) name := rfl
        _ = lookup (applyOp s p) name := ih (applyOp s p) hrest
        _ = lookup s name := lookup_applyOp_ne _ _ _ (h p (List.mem_cons_self _ _))

theorem hasKey_false_lookup {s : Snapshot} {k : String} (h : ¬ hasKey s k = true) :
    lookup s k = none := by
  cases hl : lookup s k with
  | none => rfl
  | some v => exact absurd (by simp [hasKey, hl]) h

theorem compareNew_lookup_none {l : List (String × Value)} {oldS : Snapshot} {p : PatchOp}
    (h : p ∈ compareNew l oldS) : lookup oldS p.path = none := by
  induction l with
  | nil => simp [compareNew] at h
  | cons hd rest ih =>
      obtain ⟨k, nv⟩ := hd
      unfold compareNew at h
      by_cases hk : hasKey oldS k
      · simp [hk] at h
        exact ih h
      · simp [hk] at h
        rcases h with h | h
        · subst h
          exact hasKey_false_lookup hk
        · exact ih h

theorem stripEmitter_of_no_match {ps : List PatchOp}
    (h : ∀ p ∈ ps, p.path ≠ emitterKey) : stripEmitter ps = ps := by
  induction ps with
  | nil => rfl
  | cons p rest ih =>
      have hp : p.path ≠ emitterKey := h p (List.mem_cons_self _ _)
      have hr : ∀ q ∈ rest, q.path ≠ emitterKey := fun q hq => h q (List.mem_cons_of_mem _ hq)
      simp [stripEmitter, hp, ih hr]

theorem countEmitter_append (a b : List PatchOp) :
    countEmitter (a ++ b) = countEmitter a + countEmitter b := by
  induction a with
  | nil => simp [countEmitter]
  | cons p rest ih => simp [countEmitter, ih]; omega

theorem keyCount_append (a b : List String) (name : String) :
    keyCount (a ++ b) name = keyCount a name + keyCount b name := by
  induction a with
  | nil => simp [keyCount]
  | cons k rest ih => simp [keyCount, ih]; omega

theorem keyCount_reverse (l : List String) (name : String) :
    keyCount l.reverse name = keyCount l name := by
  induction l with
  | nil => rfl
  | cons k rest ih =>
      simp [List.reverse_cons, keyCount_append, keyCount, ih]
      omega

theorem countEmitter_compareOld (l : List (String × Value)) (newS : Snapshot) :
    countEmitter (compareOld l newS) ≤ keyCount (l.map Prod.fst) emitterKey := by
  induction l with
  | nil => simp [compareOld, countEmitter, keyCount]
  | cons hd rest ih =>
      obtain ⟨k, ov⟩ := hd
      unfold compareOld
      split
      · rename_i nv hl
        by_cases hv : ov = nv
        · rw [if_pos hv, List.nil_append]
          simp only [List.map_cons, keyCount]
          by_cases hk : k = emitterKey <;> simp [hk] <;> omega
        · rw [if_neg hv, List.singleton_append]
          simp only [List.map_cons, keyCount, countEmitter]
          by_cases hk : k = emitterKey <;> simp [hk] <;> omega
      · rename_i hl
        simp only [List.map_cons, keyCount, countEmitter]
        by_cases hk : k = emitterKey <;> simp [hk] <;> omega

theorem countEmitter_compareNew (l : List (String × Value)) (oldS : Snapshot) :
    countEmitter (compareNew l oldS) ≤ keyCount (l.map Prod.fst) emitterKey := by
  induction l with
  | nil => simp [compareNew, countEmitter, keyCount]
  | cons hd rest ih =>
      obtain ⟨k, nv⟩ := hd
      unfold compareNew
      by_cases hk : hasKey oldS k
      · simp only [hk, if_pos, List.nil_append, List.map_cons, keyCount]
        omega
      · simp only [hk, Bool.false_eq_true, if_neg, List.cons_append, List.nil_append,
          List.map_cons, keyCount, countEmitter]
        by_cases hke : k = emitterKey <;> simp [hke] <;> omega

theorem countEmitter_compareNew_zero (l : List (String × Value)) (oldS : Snapshot)
    (h : (lookup oldS emitterKey).isSome) :
    countEmitter (compareNew l oldS) = 0 := by
  induction l with
  | nil => rfl
  | cons hd rest ih =>
      obtain ⟨k, nv⟩ := hd
      unfold compareNew
      by_cases hk : hasKey oldS k
      · simpa [hk, countEmitter] using ih
      · have hke : k ≠ emitterKey := by
          intro he
          subst he
          exact hk (by simpa [hasKey] using h)
        simpa [hk, countEmitter, hke] using ih

theorem lookup_none_keyCount (s : Snapshot) (name : String) (h : lookup s name = none) :
    keyCount (s.map Prod.fst) name = 0 := by
  induction s with
  | nil => rfl
  | cons hd rest ih =>
      obtain ⟨k, v⟩ := hd
      unfold lookup at h
      by_cases hk : k = name
      · simp [hk] at h
      · simp only [hk, if_neg] at h
        simp [keyCount, hk, ih h]

theorem countEmitter_compare_le_one (oldS newS : Snapshot)
    (h1 : keyCount (oldS.map Prod.fst) emitterKey ≤ 1)
    (h2 : keyCount (newS.map Prod.fst) emitterKey ≤ 1) :
    countEmitter (compare oldS newS) ≤ 1 := by
  unfold compare
  rw [countEmitter_append]
  have hrev : keyCount (oldS.reverse.map Prod.fst) emitterKey
      = keyCount (oldS.map Prod.fst) emitterKey := by
    rw [List.map_reverse, keyCount_reverse]
  cases hl : lookup oldS emitterKey with
  | none =>
      have hold : countEmitter (compareOld oldS.reverse newS) = 0 := by
        have := countEmitter_compareOld oldS.reverse newS
        rw [hrev, lookup_none_keyCount oldS emitterKey hl] at this
        omega
      have hnew := countEmitter_compareNew newS oldS
      omega
  | some v =>
      have hnew : countEmitter (compareNew newS oldS) = 0 :=
        countEmitter_compareNew_zero newS oldS (by simp [hl])
      have hold := countEmitter_compareOld oldS.reverse newS
      rw [hrev] at hold
      omega

theorem countEmitter_zero_drop {ps : List PatchOp} (h : countEmitter ps = 0) :
    dropEmitterAll ps = ps := by
  induction ps with
  | nil => rfl
  | cons p rest ih =>
      unfold countEmitter at h
      by_cases hp : p.path = emitterKey
      · simp [hp] at h
      · simp only [hp, if_neg] at h
        simp [dropEmitterAll, hp, ih (by omega)]

theorem stripEmitter_eq_drop {ps : List PatchOp} (h : countEmitter ps ≤ 1) :
    stripEmitter ps = dropEmitterAll ps := by
  induction ps with
  | nil => rfl
  | cons p rest ih =>
      unfold countEmitter at h
      by_cases hp : p.path = emitterKey
      · have hr : countEmitter rest = 0 := by simp [hp] at h; omega
        simp [stripEmitter, dropEmitterAll, hp, countEmitter_zero_drop hr]
      · simp only [hp, if_neg] at h
        simp [stripEmitter, dropEmitterAll, hp, ih (by omega)]

theorem emitter_lookup_preserved (s : Snapshot) :
    lookup (applyPatch initCoord.config (stripEmitter (compare initCoord.config s))) emitterKey
      = some Value.emitter := by
  have hinit : lookup initCoord.config emitterKey = some Value.emitter := by
    simp [initCoord, lookup]
  have hnew : ∀ p ∈ compareNew s initCoord.config, p.path ≠ emitterKey := by
    intro p hp he
    have hn := compareNew_lookup_none hp
    rw [he, hinit] at hn
    exact Option.noConfusion hn
  have hrev : (initCoord.config).reverse = [(emitterKey, Value.emitter)] := rfl
  unfold compare
  rw [hrev]
  cases hl : lookup s emitterKey with
  | none =>
      have hold : compareOld [(emitterKey, Value.emitter)] s
          = [⟨OpKind.remove, emitterKey, none⟩] := by
        simp [compareOld, hl]
      have hstrip : stripEmitter
            (⟨OpKind.remove, emitterKey, none⟩ :: compareNew s initCoord.config)
          = compareNew s initCoord.config := by
        simp [stripEmitter]
      rw [hold, List.singleton_append, hstrip, lookup_applyPatch_ne _ _ _ hnew]
      exact hinit
  | some nv =>
      by_cases hv : Value.emitter = nv
      · have hold : compareOld [(emitterKey, Value.emitter)] s = [] := by
          simp [compareOld, hl, hv]
        rw [hold, List.nil_append, stripEmitter_of_no_match hnew,
          lookup_applyPatch_ne _ _ _ hnew]
        exact hinit
      · have hold : compareOld [(emitterKey, Value.emitter)] s
            = [⟨OpKind.replace, emitterKey, some nv⟩] := by
          simp [compareOld, hl, hv]
        have hstrip : stripEmitter
              (⟨OpKind.replace, emitterKey, some nv⟩ :: compareNew s initCoord.config)
            = compareNew s initCoord.config := by
          simp [stripEmitter]
        rw [hold, List.singleton_append, hstrip, lookup_applyPatch_ne _ _ _ hnew]
        exact hinit

theorem consultPolicies_spec (l : List Bool) :
    consultPolicies l
      = ((if l.any (fun b => b) then (l.takeWhile (fun b => !b)).length + 1 else l.length),
         l.any (fun b => b)) := by
  induction l with
  | nil => rfl
  | cons a rest ih =>
      cases a with
      | true => simp [consultPolicies, List.takeWhile]
      | false =>
          by_cases hr : rest.any (fun b => b)
          · simp [consultPolicies, ih, hr, List.takeWhile]
          · simp [consultPolicies, ih, hr, List.takeWhile]

/-! The claims. -/

/-- Claim C1: while a fetch is in flight every further refresh() call is
handed the very same pending promise and no additional store fetch happens.
Starting idle, one refresh() followed by n coalesced refresh() calls performs
exactly one store.getAll, every caller holds the same promise identifier, and
that single promise resolves once, with the one final snapshot all callers
receive. -/
theorem refresh_coalesces_concurrent_calls (w : World) (n : Nat) (s : Snapshot)
    (h : w.coord.refreshPromise = none) :
    (refreshN (refresh w).1 n).1.storeCalls = w.storeCalls + 1
    ∧ (refreshN (refresh w).1 n).2 = List.replicate n (refresh w).2
    ∧ (fetchComplete (refreshN (refresh w).1 n).1 (StoreResult.ok s)).2.2
        = Except.ok (applyPatch w.coord.config (stripEmitter (compare w.coord.config s))) := by
  have hre : refresh w
      = (⟨⟨w.coord.config, w.coord.firstTime, some w.nextId⟩,
          w.nextId + 1, w.storeCalls + 1⟩, w.nextId) := by
    unfold refresh
    rw [h]
  rw [hre, refreshN_inflight rfl n, fetchComplete_ok]
  exact ⟨rfl, rfl, rfl⟩

theorem refresh_coalesces_concurrent_calls_witness :
    initWorld.coord.refreshPromise = none
    ∧ ((refreshN (refresh initWorld).1 3).1.storeCalls = initWorld.storeCalls + 1
       ∧ (refreshN (refresh initWorld).1 3).2 = List.replicate 3 (refresh initWorld).2
       ∧ (fetchComplete (refreshN (refresh initWorld).1 3).1
             (StoreResult.ok [(("foo"), Value.str ("bar"))])).2.2
           = Except.ok (applyPatch initWorld.coord.config
               (stripEmitter
                 (compare initWorld.coord.config [(("foo"), Value.str ("bar"))])))) :=
  ⟨rfl, refresh_coalesces_concurrent_calls initWorld 3 [(("foo"), Value.str ("bar"))] rfl⟩

/-- Claim C2 (code bug): when the fetch rejects, the failure is propagated,
no event fires and the snapshot keeps its last-known-good value; however the
in-flight marker is NOT cleared, because the nulling statement sits inside
the fulfillment handler which never runs, so a later refresh() is handed the
same rejected promise and never issues a fresh fetch: no retry is possible,
contrary to the claim. -/
theorem refresh_failure_leaves_marker_set :
    (fetchComplete (refresh initWorld).1 (StoreResult.err ("boom"))).2.2
        = Except.error ("boom")
    ∧ (fetchComplete (refresh initWorld).1 (StoreResult.err ("boom"))).2.1 = []
    ∧ (fetchComplete (refresh initWorld).1 (StoreResult.err ("boom"))).1.coord.config
        = initWorld.coord.config
    ∧ (fetchComplete (refresh initWorld).1 (StoreResult.err ("boom"))).1.coord.refreshPromise
        = some (refresh initWorld).2
    ∧ (refresh (fetchComplete (refresh initWorld).1 (StoreResult.err ("boom"))).1).2
        = (refresh initWorld).2
    ∧ (refresh (fetchComplete (refresh initWorld).1 (StoreResult.err ("boom"))).1).1.storeCalls
        = (fetchComplete (refresh initWorld).1 (StoreResult.err ("boom"))).1.storeCalls :=
  ⟨rfl, rfl, rfl, rfl, rfl, rfl⟩

/-- Claim C3: the first read consults no policy and performs exactly one
store fetch, whatever the policies would answer; every later call consults
the reactive policies in registration order, short-circuits at the first
true, and invokes refresh() exactly when some policy answered true. -/
theorem first_read_bypasses_policies (answers later : List Bool) (s : Snapshot) (w : World)
    (h : w.coord.firstTime = false) :
    (refreshIfNeeded initWorld answers).2.1 = 0
    ∧ (refreshIfNeeded initWorld answers).2.2.isSome = true
    ∧ (refreshIfNeeded initWorld answers).1.storeCalls = 1
    ∧ (∃ r, getAll initWorld answers (StoreResult.ok s) = Except.ok r ∧ r.1.storeCalls = 1)
    ∧ ((refreshIfNeeded w later).2.2.isSome = true ↔ later.any (fun b => b) = true)
    ∧ (refreshIfNeeded w later).2.1
        = (if later.any (fun b => b) then (later.takeWhile (fun b => !b)).length + 1
           else later.length) := by
  have hri : refreshIfNeeded initWorld answers
      = (⟨⟨initCoord.config, false, some 0⟩, 1, 1⟩, 0, some 0) := rfl
  refine ⟨rfl, rfl, rfl, ?_, ?_, ?_⟩
  · simp only [getAll, hri, fetchComplete_ok]
    exact ⟨_, rfl, rfl⟩
  · simp only [refreshIfNeeded, h, consultPolicies_spec]
    by_cases ha : later.any (fun b => b) <;> simp [ha]
  · simp only [refreshIfNeeded, h, consultPolicies_spec]
    by_cases ha : later.any (fun b => b) <;> simp [ha]

theorem first_read_bypasses_policies_witness :
    (⟨⟨[], false, none⟩, 0, 0⟩ : World).coord.firstTime = false
    ∧ ((refreshIfNeeded initWorld [false]).2.1 = 0
       ∧ (refreshIfNeeded initWorld [false]).2.2.isSome = true
       ∧ (refreshIfNeeded initWorld [false]).1.storeCalls = 1
       ∧ (∃ r, getAll initWorld [false] (StoreResult.ok [(("a"), Value.num 1)])
             = Except.ok r ∧ r.1.storeCalls = 1)
       ∧ ((refreshIfNeeded (⟨⟨[], false, none⟩, 0, 0⟩ : World) [false, true, false]).2.2.isSome
              = true
            ↔ ([false, true, false] : List Bool).any (fun b => b) = true)
       ∧ (refreshIfNeeded (⟨⟨[], false, none⟩, 0, 0⟩ : World) [false, true, false]).2.1
           = (if ([false, true, false] : List Bool).any (fun b => b)
              then (([false, true, false] : List Bool).takeWhile (fun b => !b)).length + 1
              else ([false, true, false] : List Bool).length)) :=
  ⟨rfl, first_read_bypasses_policies [false] [false, true, false]
    [(("a"), Value.num 1)] (⟨⟨[], false, none⟩, 0, 0⟩ : World) rfl⟩

/-- Claim C4: a refresh cycle emits changed exactly when the diff of the old
snapshot against the fetched one, with every operation targeting the
reserved key removed, is non-empty.  The hypotheses say each snapshot holds
the reserved key at most once, which is true of every JavaScript object; the
diff then contains at most one operation on the reserved key, so the single
splice performed by the code removes all of them.  The fetch sequence
foo-bar then foo-bar-hello-world makes the second cycle emit changed with
exactly one add of hello, followed by refresh. -/
theorem changed_iff_stripped_patch_nonempty (w : World) (newS : Snapshot)
    (h1 : keyCount (w.coord.config.map Prod.fst) emitterKey ≤ 1)
    (h2 : keyCount (newS.map Prod.fst) emitterKey ≤ 1) :
    ((fetchComplete w (StoreResult.ok newS)).2.1.any isChangedEvent = true
        ↔ dropEmitterAll (compare w.coord.config newS) ≠ [])
    ∧ (fetchComplete (refresh (fetchComplete (refresh initWorld).1
            (StoreResult.ok [(("foo"), Value.str ("bar"))])).1).1
          (StoreResult.ok [(("foo"), Value.str ("bar")), (("hello"), Value.str ("world"))])).2.1
        = [Event.changed
             [((emitterKey), Value.emitter), (("foo"), Value.str ("bar")),
              (("hello"), Value.str ("world"))]
             [⟨OpKind.add, ("hello"), some (Value.str ("world"))⟩],
           Event.refresh
             [((emitterKey), Value.emitter), (("foo"), Value.str ("bar")),
              (("hello"), Value.str ("world"))]] := by
  constructor
  · rw [fetchComplete_ok,
      stripEmitter_eq_drop (countEmitter_compare_le_one w.coord.config newS h1 h2)]
    by_cases hd : dropEmitterAll (compare w.coord.config newS) = [] <;>
      simp [hd, isChangedEvent]
  · rfl

theorem changed_iff_stripped_patch_nonempty_witness :
    keyCount (initWorld.coord.config.map Prod.fst) emitterKey ≤ 1
    ∧ keyCount (([(("a"), Value.num 1)] : Snapshot).map Prod.fst) emitterKey ≤ 1
    ∧ (((fetchComplete initWorld (StoreResult.ok [(("a"), Value.num 1)])).2.1.any isChangedEvent
           = true
         ↔ dropEmitterAll (compare initWorld.coord.config [(("a"), Value.num 1)]) ≠ [])
       ∧ (fetchComplete (refresh (fetchComplete (refresh initWorld).1
              (StoreResult.ok [(("foo"), Value.str ("bar"))])).1).1
            (StoreResult.ok
              [(("foo"), Value.str ("bar")), (("hello"), Value.str ("world"))])).2.1
          = [Event.changed
               [((emitterKey), Value.emitter), (("foo"), Value.str ("bar")),
                (("hello"), Value.str ("world"))]
               [⟨OpKind.add, ("hello"), some (Value.str ("world"))⟩],
             Event.refresh
               [((emitterKey), Value.emitter), (("foo"), Value.str ("bar")),
                (("hello"), Value.str ("world"))]]) :=
  ⟨by decide, by decide,
    changed_iff_stripped_patch_nonempty initWorld [(("a"), Value.num 1)]
      (by decide) (by decide)⟩

/-- Claim C5 (code bug): apply() groups the patches by top-level key and
issues a store set for every key still defined afterwards and a store delete
for every key now undefined — including keys that were absent both before
and after patching, for which the claim (and the repository test, which
expects exactly one delete on this very input) says nothing must be issued.
On the patch list of the test, the code issues a second delete, for test2.
The direct scenario of the claim (add x, remove y against a snapshot holding
y but not x) does issue exactly one set and one delete. -/
theorem apply_deletes_untouched_absent_key :
    lookup initWorld.coord.config ("test2") = none
    ∧ apply initWorld
        [⟨OpKind.add, ("first"), some (Value.str ("value"))⟩,
         ⟨OpKind.replace, ("foo"), some (Value.str ("fred"))⟩,
         ⟨OpKind.remove, ("test"), none⟩,
         ⟨OpKind.remove, ("test2"), none⟩]
      = [(("first"), some (Value.str ("value"))), (("foo"), some (Value.str ("fred"))),
         (("test"), none), (("test2"), none)]
    ∧ apply ⟨⟨[((emitterKey), Value.emitter), (("y"), Value.num 2)], true, none⟩, 0, 0⟩
        [⟨OpKind.add, ("x"), some (Value.num 1)⟩, ⟨OpKind.remove, ("y"), none⟩]
      = [(("x"), some (Value.num 1)), (("y"), none)] :=
  ⟨rfl, by decide, by decide⟩

/-- Claim C6 (code bug): the constructor validation holds, the first call to
shouldRefresh returns true and an immediate second call returns false; but
the comparison is strict and, worse, it is written lastRefresh.add(duration),
which mutates the stored baseline in place, so a false-returning call moves
the baseline forward by the duration.  A call made exactly the duration
after the last true-returning call therefore returns false, and the trace of
the repository test (duration 5000: true at 0, false at 1000, expected true
at 6000) also returns false in the code. -/
theorem stale_policy_baseline_drift :
    StalePolicy.make none = Except.error ("Invalid duration")
    ∧ StalePolicy.make (some 0) = Except.error ("Invalid duration")
    ∧ StalePolicy.make (some 1000) = Except.ok ⟨1000, none⟩
    ∧ StalePolicy.shouldRefresh ⟨1000, none⟩ 0 = (⟨1000, some 0⟩, true)
    ∧ StalePolicy.shouldRefresh ⟨1000, some 0⟩ 0 = (⟨1000, some 1000⟩, false)
    ∧ StalePolicy.shouldRefresh ⟨1000, some 1000⟩ 1000 = (⟨1000, some 2000⟩, false)
    ∧ StalePolicy.shouldRefresh ⟨5000, some 0⟩ 1000 = (⟨5000, some 5000⟩, false)
    ∧ StalePolicy.shouldRefresh ⟨5000, some 5000⟩ 6000 = (⟨5000, some 10000⟩, false) :=
  ⟨rfl, rfl, rfl, by decide, by decide, by decide, by decide, by decide⟩

/-- Claim C7: set() delegates to the store; on store success it emits the
set event, invokes publish with the set operation, the name and the value on
every registered change publisher — whether or not a publisher throws, every
publisher is invoked and the outcome is still a success, so a publisher can
never fail the write — and then unconditionally triggers a refresh.  On
store failure the store error propagates, no event fires, no publisher is
invoked and no refresh is triggered.  delete() behaves symmetrically with
the delete event. -/
theorem set_delete_delegate_and_swallow (w : World) (name : String) (v : Value)
    (pubs : List Bool) (e : String) :
    (set w name v (Except.ok ()) pubs).events = [Event.set name v]
    ∧ (set w name v (Except.ok ()) pubs).published
        = pubs.map (fun _ => (("set" : String), name, some v))
    ∧ (set w name v (Except.ok ()) pubs).refreshed = true
    ∧ (set w name v (Except.ok ()) pubs).outcome = Except.ok (refresh w).2
    ∧ (set w name v (Except.error e) pubs).events = []
    ∧ (set w name v (Except.error e) pubs).published = []
    ∧ (set w name v (Except.error e) pubs).refreshed = false
    ∧ (set w name v (Except.error e) pubs).outcome = Except.error e
    ∧ (delete w name (Except.ok ()) pubs).events = [Event.delete name]
    ∧ (delete w name (Except.ok ()) pubs).published
        = pubs.map (fun _ => (("delete" : String), name, (none : Option Value)))
    ∧ (delete w name (Except.ok ()) pubs).refreshed = true
    ∧ (delete w name (Except.ok ()) pubs).outcome = Except.ok (refresh w).2
    ∧ (delete w name (Except.error e) pubs).events = []
    ∧ (delete w name (Except.error e) pubs).published = []
    ∧ (delete w name (Except.error e) pubs).refreshed = false
    ∧ (delete w name (Except.error e) pubs).outcome = Except.error e :=
  ⟨rfl, rfl, rfl, rfl, rfl, rfl, rfl, rfl, rfl, rfl, rfl, rfl, rfl, rfl, rfl, rfl⟩

/-- Claim C8: the events of a refresh cycle come in a fixed order — the
mutation-specific event first when the cycle was started by set() or
delete(), then changed only when the stripped diff is non-empty, then
refresh, which is always emitted on successful completion. -/
theorem events_in_fixed_order (w : World) (name : String) (v : Value)
    (pubs : List Bool) (fetched : Snapshot) :
    (setCycle w name v pubs fetched).2.1
        = Event.set name v ::
          ((if stripEmitter (compare w.coord.config fetched) = [] then []
            else [Event.changed
                (applyPatch w.coord.config (stripEmitter (compare w.coord.config fetched)))
                (stripEmitter (compare w.coord.config fetched))])
            ++ [Event.refresh
                (applyPatch w.coord.config (stripEmitter (compare w.coord.config fetched)))])
    ∧ (deleteCycle w name pubs fetched).2.1
        = Event.delete name ::
          ((if stripEmitter (compare w.coord.config fetched) = [] then []
            else [Event.changed
                (applyPatch w.coord.config (stripEmitter (compare w.coord.config fetched)))
                (stripEmitter (compare w.coord.config fetched))])
            ++ [Event.refresh
                (applyPatch w.coord.config (stripEmitter (compare w.coord.config fetched)))])
    ∧ (fetchComplete w (StoreResult.ok fetched)).2.1
        = (if stripEmitter (compare w.coord.config fetched) = [] then []
           else [Event.changed
               (applyPatch w.coord.config (stripEmitter (compare w.coord.config fetched)))
               (stripEmitter (compare w.coord.config fetched))])
          ++ [Event.refresh
              (applyPatch w.coord.config (stripEmitter (compare w.coord.config fetched)))] := by
  have hw : (refresh w).1.coord.config = w.coord.config := refresh_preserves_config w
  refine ⟨?_, ?_, ?_⟩
  · show Event.set name v :: (fetchComplete (refresh w).1 (StoreResult.ok fetched)).2.1 = _
    rw [fetchComplete_ok, hw]
  · show Event.delete name :: (fetchComplete (refresh w).1 (StoreResult.ok fetched)).2.1 = _
    rw [fetchComplete_ok, hw]
  · rw [fetchComplete_ok]

/-- Claim C9: the promise returned by set() (and delete()) resolves, on
store success, with the live snapshot produced by the triggered refresh —
the final configuration object of the cycle — and not with the store write
result. -/
theorem set_resolves_with_live_snapshot (w : World) (name : String) (v : Value)
    (pubs : List Bool) (fetched : Snapshot) :
    (setCycle w name v pubs fetched).2.2
        = Except.ok ((setCycle w name v pubs fetched).1.coord.config)
    ∧ (deleteCycle w name pubs fetched).2.2
        = Except.ok ((deleteCycle w name pubs fetched).1.coord.config) := by
  constructor
  · show (fetchComplete (refresh w).1 (StoreResult.ok fetched)).2.2
        = Except.ok ((fetchComplete (refresh w).1 (StoreResult.ok fetched)).1.coord.config)
    rw [fetchComplete_ok]
  · show (fetchComplete (refresh w).1 (StoreResult.ok fetched)).2.2
        = Except.ok ((fetchComplete (refresh w).1 (StoreResult.ok fetched)).1.coord.config)
    rw [fetchComplete_ok]

/-- Claim C10: the reserved key is reachable through the public read
interface — the constructor stores the back-reference under it, the diff of
every refresh cycle never touches it after the strip, and get applied to the
reserved key resolves with the stored back-reference, whatever snapshot the
store returns. -/
theorem emitter_key_reachable_via_get (s : Snapshot) (answers : List Bool) :
    lookup initCoord.config emitterKey = some Value.emitter
    ∧ (∃ r, get initWorld emitterKey answers (StoreResult.ok s) = Except.ok r
          ∧ r.2 = some Value.emitter) := by
  refine ⟨rfl, ?_⟩
  have hri : refreshIfNeeded initWorld answers
      = (⟨⟨initCoord.config, false, some 0⟩, 1, 1⟩, 0, some 0) := rfl
  unfold get
  rw [if_neg (by decide : ¬ (emitterKey = ""))]
  simp only [hri, fetchComplete_ok]
  exact ⟨_, rfl, emitter_lookup_preserved s⟩

end RefreshingConfig
